import Mathlib

/-!
# Foldy render service — verification of the fold-coverage, SSRF-guard,
# overlay, CTA, pipeline and job-queue claims

Shallow embedding of `src/index.js` (current revision, the first document in
the file) and `src/worker.js`.  JS numbers are modelled by `ℚ` (DOM geometry)
and `ℕ`/`ℤ` (counters, bit patterns); JS `Math.floor`/`Math.ceil`/`Math.round`
become `Int.floor`/`Int.ceil`/`⌊q + 1/2⌋`.
-/

/-! ## Coverage grid (`cleanAudit` in-page script, src/index.js lines 327-725)

`GRID_ROWS = 24`, `GRID_COLS = 40`; `cellW = vw / GRID_COLS`,
`cellH = vh / GRID_ROWS`.  A rect is `[x, y, w, h]`. -/

/-- A DOM rect `[x, y, w, h]` as collected by the audit script. -/
structure Rect where
  x : ℚ
  y : ℚ
  w : ℚ
  h : ℚ
deriving DecidableEq, Repr

/-- JS `Math.round`: round half toward positive infinity. -/
def jsRound (q : ℚ) : ℤ := ⌊q + 1 / 2⌋

/-- Grid cells covered by one rect (`rasterizeToGrid` body, lines 612-621):
`x0 = Math.floor(x / cellW)`, `x1 = Math.ceil((x + w) / cellW)` (same for y),
cells `gy * GRID_COLS + gx` for `gy ∈ [max 0 y0, min GRID_ROWS y1)`,
`gx ∈ [max 0 x0, min GRID_COLS x1)`. -/
def rectCells (vw vh : ℚ) (r : Rect) : Finset ℤ :=
  let cellW := vw / 40
  let cellH := vh / 24
  let x0 : ℤ := ⌊r.x / cellW⌋
  let y0 : ℤ := ⌊r.y / cellH⌋
  let x1 : ℤ := ⌈(r.x + r.w) / cellW⌉
  let y1 : ℤ := ⌈(r.y + r.h) / cellH⌉
  ((Finset.Ico (max 0 y0) (min 24 y1)) ×ˢ (Finset.Ico (max 0 x0) (min 40 x1))).image
    (fun p => p.1 * 40 + p.2)

/-- `rasterizeToGrid(rects)` (src/index.js lines 610-624): the set of covered
cell indices (the JS builds a `Set` and returns it sorted; the `Finset` is that
set). -/
def rasterizeToGrid (vw vh : ℚ) (rects : List Rect) : Finset ℤ :=
  rects.foldl (fun covered r => covered ∪ rectCells vw vh r) ∅

/-- `foldCoveragePct = Math.round((coveredCells.length / (GRID_ROWS * GRID_COLS)) * 100)`
(src/index.js line 692). -/
def foldCoveragePct (vw vh : ℚ) (rects : List Rect) : ℤ :=
  jsRound (((rasterizeToGrid vw vh rects).card : ℚ) / (24 * 40) * 100)

/-- All cells of the fixed 24×40 grid. -/
def gridCells : Finset ℤ :=
  ((Finset.Ico (0 : ℤ) 24) ×ˢ (Finset.Ico (0 : ℤ) 40)).image (fun p => p.1 * 40 + p.2)

lemma rectCells_subset_gridCells (vw vh : ℚ) (r : Rect) :
    rectCells vw vh r ⊆ gridCells := by
  intro c hc
  simp only [rectCells, Finset.mem_image, Finset.mem_product, Finset.mem_Ico] at hc
  obtain ⟨⟨gy, gx⟩, ⟨⟨hy0, hy1⟩, hx0, hx1⟩, rfl⟩ := hc
  simp only [gridCells, Finset.mem_image, Finset.mem_product, Finset.mem_Ico]
  exact ⟨⟨gy, gx⟩, ⟨⟨le_of_max_le_left hy0, lt_of_lt_of_le hy1 (min_le_left _ _)⟩,
    le_of_max_le_left hx0, lt_of_lt_of_le hx1 (min_le_left _ _)⟩, rfl⟩

lemma rasterizeToGrid_subset_gridCells (vw vh : ℚ) (rects : List Rect) :
    rasterizeToGrid vw vh rects ⊆ gridCells := by
  suffices h : ∀ (acc : Finset ℤ), acc ⊆ gridCells →
      rects.foldl (fun covered r => covered ∪ rectCells vw vh r) acc ⊆ gridCells by
    exact h ∅ (Finset.empty_subset _)
  induction rects with
  | nil => intro acc hacc; simp only [List.foldl_nil]; exact hacc
  | cons r rs ih =>
    intro acc hacc
    exact ih _ (Finset.union_subset hacc (rectCells_subset_gridCells vw vh r))

lemma gridCells_card : gridCells.card = 960 := by
  rw [gridCells, Finset.card_image_of_injOn, Finset.card_product]
  · rfl
  · intro p hp q hq hpq
    simp only [Finset.mem_product, Finset.mem_Ico, Finset.mem_coe] at hp hq
    have : p.1 * 40 + p.2 = q.1 * 40 + q.2 := hpq
    have h1 : p.1 = q.1 := by omega
    have h2 : p.2 = q.2 := by omega
    exact Prod.ext h1 h2

lemma rasterizeToGrid_append_superset (vw vh : ℚ) (rects : List Rect) (r : Rect) :
    rasterizeToGrid vw vh rects ⊆ rasterizeToGrid vw vh (rects ++ [r]) := by
  suffices h : ∀ (acc : Finset ℤ),
      rects.foldl (fun covered s => covered ∪ rectCells vw vh s) acc ⊆
      (rects ++ [r]).foldl (fun covered s => covered ∪ rectCells vw vh s) acc by
    exact h ∅
  induction rects with
  | nil => intro acc; simpa using Finset.subset_union_left
  | cons p ps ih => intro acc; simpa using ih (acc ∪ rectCells vw vh p)

lemma jsRound_mono {a b : ℚ} (h : a ≤ b) : jsRound a ≤ jsRound b := by
  exact Int.floor_le_floor (by linarith)

/-- **C1.** For every viewport and every list of rects the computed
`foldCoveragePct` lies in `[0, 100]`; and appending a further rect to the list
can only grow the set of covered cells (superset) and hence the coverage
percentage (monotone non-decreasing) on the fixed 24×40 grid. -/
theorem foldCoverage_bounded_and_monotone (vw vh : ℚ) (rects : List Rect) (r : Rect) :
    0 ≤ foldCoveragePct vw vh rects ∧ foldCoveragePct vw vh rects ≤ 100 ∧
    rasterizeToGrid vw vh rects ⊆ rasterizeToGrid vw vh (rects ++ [r]) ∧
    foldCoveragePct vw vh rects ≤ foldCoveragePct vw vh (rects ++ [r]) := by
  have hcard : ∀ l : List Rect, (rasterizeToGrid vw vh l).card ≤ 960 := by
    intro l
    calc (rasterizeToGrid vw vh l).card
        ≤ gridCells.card := Finset.card_le_card (rasterizeToGrid_subset_gridCells vw vh l)
      _ = 960 := gridCells_card
  refine ⟨?_, ?_, rasterizeToGrid_append_superset vw vh rects r, ?_⟩
  · have : (0 : ℚ) ≤ ((rasterizeToGrid vw vh rects).card : ℚ) / (24 * 40) * 100 := by
      positivity
    exact Int.le_floor.mpr (by push_cast; linarith)
  · have h1 : ((rasterizeToGrid vw vh rects).card : ℚ) ≤ 960 := by
      exact_mod_cast hcard rects
    have : ((rasterizeToGrid vw vh rects).card : ℚ) / (24 * 40) * 100 ≤ 100 := by
      nlinarith
    calc foldCoveragePct vw vh rects ≤ jsRound 100 := jsRound_mono this
      _ = 100 := by norm_num [jsRound]
  · apply jsRound_mono
    have hsub := rasterizeToGrid_append_superset vw vh rects r
    have hc : ((rasterizeToGrid vw vh rects).card : ℚ) ≤
        ((rasterizeToGrid vw vh (rects ++ [r])).card : ℚ) := by
      exact_mod_cast Finset.card_le_card hsub
    have h960 : (0 : ℚ) < 24 * 40 := by norm_num
    nlinarith

/-! ## CTA detection (`cleanAudit` in-page script, src/index.js lines 352-388
and 626-636)

Elements are the results of `document.querySelectorAll("a,button,[role='button']")`,
modelled with the style/geometry/attribute facts the script reads.
`getBoundingClientRect` guarantees `right = left + width`, `bottom = top + height`.
String normalisation `normalize("NFD")` is modelled as the identity (inputs are
assumed already decomposed); the combining-mark strip `replace(/[̀-ͯ]/g,"")`
is modelled exactly. -/

/-- One actionable element as seen by the audit script. `opacity` and the four
border radii are the `parseFloat`-ed computed values. -/
structure CtaElem where
  visibility : String
  display : String
  opacity : ℚ
  left : ℚ
  top : ℚ
  width : ℚ
  height : ℚ
  innerText : String
  role : String
  type : String
  className : String
  id : String
  backgroundColor : String
  radiusTL : ℚ
  radiusTR : ℚ
  radiusBL : ℚ
  radiusBR : ℚ
deriving DecidableEq, Repr

def CtaElem.right (e : CtaElem) : ℚ := e.left + e.width

def CtaElem.bottom (e : CtaElem) : ℚ := e.top + e.height

/-- `isVisible` of the clean audit (src/index.js lines 338-349). -/
def cleanIsVisible (vw vh : ℚ) (e : CtaElem) : Bool :=
  if e.visibility = "hidden" || e.display = "none" then false
  else if e.opacity < 5 / 100 then false
  else if e.width ≤ 0 || e.height ≤ 0 then false
  else if e.bottom ≤ 0 || e.right ≤ 0 || e.top ≥ vh || e.left ≥ vw then false
  else true

/-- JS `toLowerCase`, restricted to ASCII (attribute values and the lexicon
are ASCII-lowercase; non-ASCII input is assumed already lowercase). -/
def asciiLowerChar (c : Char) : Char :=
  if 'A' ≤ c ∧ c ≤ 'Z' then Char.ofNat (c.toNat + 32) else c

def lowerStr (s : String) : String := ⟨s.data.map asciiLowerChar⟩

/-- Strip the Unicode combining-mark range U+0300-U+036F (the
`.replace(/[̀-ͯ]/g, "")` of `norm`, line 356). -/
def stripCombining (s : String) : String :=
  ⟨s.data.filter (fun c => !(0x300 ≤ c.toNat && c.toNat ≤ 0x36F))⟩

/-- `norm(t)` (src/index.js lines 353-357): lowercase, NFD-normalise (modelled
as the identity on already-decomposed input), drop combining marks. -/
def jsNorm (s : String) : String := stripCombining (lowerStr s)

def startsWithChars : List Char → List Char → Bool
  | _, [] => true
  | [], _ :: _ => false
  | c :: cs, w :: ws => c = w && startsWithChars cs ws

def occursIn (pat : List Char) : List Char → Bool
  | [] => pat.isEmpty
  | c :: rest => startsWithChars (c :: rest) pat || occursIn pat rest

/-- JS `String.prototype.includes`: `pat` occurs as a contiguous substring. -/
def jsIncludes (s pat : String) : Bool := occursIn pat.data s.data

/-- `CTA_PHRASES` (src/index.js lines 358-367). -/
def CTA_PHRASES : List String :=
  ["get started", "start now", "request a demo", "book a demo", "request demo",
   "buy", "add to cart", "sign up", "log in", "subscribe", "try", "contact", "learn more",
   "demander une demo", "demander une démo", "essayer", "nous contacter", "en savoir plus",
   "commencer", "acheter", "ajouter au panier", "reserver", "réserver", "s\x27inscrire",
   "se connecter",
   "demo anfordern", "jetzt starten", "kaufen", "in den warenkorb", "buchen",
   "registrieren", "anmelden", "testen", "kontakt", "mehr erfahren",
   "solicitar una demo", "empezar", "comprar", "añadir al carrito", "reservar",
   "regístrate", "iniciar sesion", "iniciar sesión", "probar", "contacto",
   "mas informacion", "más información",
   "solicitar uma demo", "comecar", "começar", "comprar", "adicionar ao carrinho",
   "reservar", "inscrever-se", "entrar", "experimentar", "contato", "saiba mais",
   "richiedi una demo", "inizia", "compra", "aggiungi al carrello", "prenota",
   "iscriviti", "accedi", "prova", "contattaci", "scopri di piu", "scopri di più"]

/-- `hasCtaText` (src/index.js lines 368-371). -/
def hasCtaText (e : CtaElem) : Bool :=
  let t := jsNorm e.innerText
  decide (t.length > 2) && CTA_PHRASES.any (fun p => jsIncludes t p)

/-- JS `\w`: `[A-Za-z0-9_]`. -/
def isWordChar (c : Char) : Bool := c.isAlpha || c.isDigit || c = '_'

/-- There is no word character just before the current position. -/
def atWordBoundary : Option Char → Bool
  | none => true
  | some c => !isWordChar c

/-- The character after a match (head of the rest) is absent or not a word
character. -/
def endsWordBoundary : List Char → Bool
  | [] => true
  | c :: _ => !isWordChar c

/-- Regex word search: does the literal `w` occur in `s` preceded by a `\b`
(and, when `needEnd`, followed by one)?  All searched literals start and end
with word characters, for which this matches JS `\b` semantics. -/
def wordSearch (w : List Char) (needEnd : Bool) : Option Char → List Char → Bool
  | _, [] => false
  | prev, c :: rest =>
    (atWordBoundary prev && startsWithChars (c :: rest) w &&
      (!needEnd || endsWordBoundary ((c :: rest).drop w.length))) ||
    wordSearch w needEnd (some c) rest

/-- `/\b(pat)\b/.test(s)` for a literal `pat`. -/
def reWord (pat s : String) : Bool := wordSearch pat.data true none s.data

/-- `/\b(pat)/.test(s)` for a literal `pat` (prefix patterns ending in `-`). -/
def reWordStart (pat s : String) : Bool := wordSearch pat.data false none s.data

/-- `looksLikeButton` (src/index.js lines 372-388). -/
def looksLikeButton (e : CtaElem) : Bool :=
  let role := lowerStr e.role
  let type := lowerStr e.type
  let cls := lowerStr e.className
  let id := lowerStr e.id
  let classHit :=
    (["btn", "button", "cta", "primary", "pill", "calltoaction",
      "call-to-action"].any (fun p => reWord p cls)) ||
    (["btn", "button", "cta", "primary", "pill"].any (fun p => reWord p id)) ||
    (["btn-", "button-", "cta-", "primary-"].any (fun p => reWordStart p cls))
  let roleHit := role = "button"
  let typeHit := type = "button" || type = "submit"
  let hasBg := e.backgroundColor ≠ "" && e.backgroundColor ≠ "rgba(0, 0, 0, 0)" &&
    e.backgroundColor ≠ "transparent"
  let radius := e.radiusTL + e.radiusTR + e.radiusBL + e.radiusBR
  let rounded := radius ≥ 12
  classHit || roleHit || typeHit || (hasBg && rounded)

/-- `ctaDetection` (src/index.js lines 626-636): visible actionable elements
matching the lexicon or the button heuristic; `firstCtaInFold` becomes true on
the first candidate with `r.top >= 0 && r.bottom <= window.innerHeight`. -/
def ctaDetection (vw vh : ℚ) (els : List CtaElem) : Bool :=
  (((els.filter (fun el => cleanIsVisible vw vh el)).filter
      (fun el => hasCtaText el || looksLikeButton el)).any
    (fun el => decide (0 ≤ el.top) && decide (el.bottom ≤ vh)))

/-- The claim's reading: the element's rect lies entirely within the viewport
in both axes. -/
def ctaFullyInViewport (vw vh : ℚ) (e : CtaElem) : Prop :=
  0 ≤ e.top ∧ e.bottom ≤ vh ∧ 0 ≤ e.left ∧ e.right ≤ vw

/-- The claim C4 as stated: detection is true iff some qualifying element is
entirely inside the viewport in both axes. -/
def ctaInFoldSpec (vw vh : ℚ) (els : List CtaElem) : Prop :=
  ∃ el ∈ els, cleanIsVisible vw vh el = true ∧
    (hasCtaText el || looksLikeButton el) = true ∧ ctaFullyInViewport vw vh el

/-- A visible `role="button"` element sticking 10px out of the left viewport
edge but fully inside vertically. -/
def ctaCounterElem : CtaElem :=
  { visibility := "visible", display := "block", opacity := 1,
    left := -10, top := 10, width := 50, height := 30,
    innerText := "", role := "button", type := "", className := "", id := "",
    backgroundColor := "", radiusTL := 0, radiusTR := 0, radiusBL := 0, radiusBR := 0 }

/-- **C4, counterexample.** On a 393×852 viewport with a single qualifying
element that crosses the left viewport edge (so its rect is *not* entirely
within the viewport in both axes), `ctaDetection` still reports
`firstCtaInFold = true`: the code checks vertical containment only. -/
theorem ctaDetection_not_both_axes :
    ctaDetection 393 852 [ctaCounterElem] = true ∧
    ¬ ctaInFoldSpec 393 852 [ctaCounterElem] := by
  have hlow : lowerStr "button" = "button" := by decide
  have hvis : cleanIsVisible 393 852 ctaCounterElem = true := by
    norm_num [cleanIsVisible, ctaCounterElem, CtaElem.bottom, CtaElem.right]
    decide
  have hbtn : looksLikeButton ctaCounterElem = true := by
    simp [looksLikeButton, ctaCounterElem, hlow]
  constructor
  · norm_num [ctaDetection, List.filter_cons, ctaCounterElem]
    exact ⟨ctaCounterElem, ⟨hvis, rfl⟩, Or.inr hbtn, by norm_num [ctaCounterElem],
      by norm_num [ctaCounterElem, CtaElem.bottom]⟩
  · intro h
    obtain ⟨el, hmem, _, _, _, _, hleft, _⟩ := h
    simp only [List.mem_singleton] at hmem
    subst hmem
    norm_num [ctaCounterElem] at hleft

/-- **C4, amended.** `firstCtaInFold` is true iff at least one qualifying CTA
element (visible actionable element matching the CTA text lexicon or the
button-look heuristic) has a bounding rect entirely within the viewport
*vertically* (`0 ≤ top` and `bottom ≤ vh`); horizontal containment is not
required. -/
theorem ctaDetection_iff_vertically_in_fold (vw vh : ℚ) (els : List CtaElem) :
    ctaDetection vw vh els = true ↔
    ∃ el ∈ els, cleanIsVisible vw vh el = true ∧
      (hasCtaText el || looksLikeButton el) = true ∧ 0 ≤ el.top ∧ el.bottom ≤ vh := by
  simp only [ctaDetection, List.any_eq_true, List.mem_filter, Bool.and_eq_true,
    decide_eq_true_eq]
  constructor
  · rintro ⟨el, ⟨⟨hmem, hvis⟩, hqual⟩, htop, hbot⟩
    exact ⟨el, hmem, hvis, hqual, htop, hbot⟩
  · rintro ⟨el, hmem, hvis, hqual, htop, hbot⟩
    exact ⟨el, ⟨⟨hmem, hvis⟩, hqual⟩, htop, hbot⟩

/-! ## Overlay tagging and hiding (src/index.js lines 290-291 and 321-324)

The pre-hide scan sets `data-foldy-overlay-candidate="1"` on each candidate
node; `hideOverlays` then injects the single style rule
`[data-foldy-overlay-candidate="1"] ... display:none !important`.  The DOM is
a tree of elements, each carrying: whether it has the candidate tag, whether
its own style already hides it (`display:none`), and its content rect.  A
`display:none` element is not laid out, so neither its rect nor any descendant
rect reaches the audit's rect collectors (descendants get zero-size bounding
rects and fail every `isVisible` check). -/

inductive DomTree where
  | node (tagged : Bool) (hidden : Bool) (rect : Rect) (children : List DomTree)

mutual

/-- The hide step: the injected attribute-selector rule sets `display:none`
exactly on elements carrying the tag, leaving every other element's style
untouched. -/
def hideOverlays : DomTree → DomTree
  | .node t h r cs => .node t (h || t) r (hideOverlaysList cs)

def hideOverlaysList : List DomTree → List DomTree
  | [] => []
  | d :: ds => hideOverlays d :: hideOverlaysList ds

end

mutual

/-- Rects contributed to the audit by rendered elements: a hidden element
contributes nothing, for itself or for its subtree. -/
def visRects : DomTree → List Rect
  | .node _ h r cs => if h then [] else r :: visRectsList cs

def visRectsList : List DomTree → List Rect
  | [] => []
  | d :: ds => visRects d ++ visRectsList ds

end

mutual

/-- Specification side: the rendered rects with every tagged element's whole
subtree removed. -/
def visRectsExclTagged : DomTree → List Rect
  | .node t h r cs => if h || t then [] else r :: visRectsExclTaggedList cs

def visRectsExclTaggedList : List DomTree → List Rect
  | [] => []
  | d :: ds => visRectsExclTagged d ++ visRectsExclTaggedList ds

end

mutual

/-- `(tagged, hidden-by-style)` for every element of the tree, in preorder. -/
def styleFlags : DomTree → List (Bool × Bool)
  | .node t h _ cs => (t, h) :: styleFlagsList cs

def styleFlagsList : List DomTree → List (Bool × Bool)
  | [] => []
  | d :: ds => styleFlags d ++ styleFlagsList ds

end

mutual

theorem visRects_hideOverlays (d : DomTree) :
    visRects (hideOverlays d) = visRectsExclTagged d := by
  cases d with
  | node t h r cs =>
    rw [hideOverlays, visRects, visRectsExclTagged, visRectsList_hideOverlays cs]

theorem visRectsList_hideOverlays (l : List DomTree) :
    visRectsList (hideOverlaysList l) = visRectsExclTaggedList l := by
  cases l with
  | nil => rfl
  | cons d ds =>
    rw [hideOverlaysList, visRectsList, visRectsExclTaggedList,
      visRects_hideOverlays d, visRectsList_hideOverlays ds]

end

mutual

theorem styleFlags_hideOverlays (d : DomTree) :
    styleFlags (hideOverlays d) = (styleFlags d).map (fun p => (p.1, p.2 || p.1)) := by
  cases d with
  | node t h r cs =>
    rw [hideOverlays, styleFlags, styleFlags, List.map_cons,
      styleFlagsList_hideOverlays cs]

theorem styleFlagsList_hideOverlays (l : List DomTree) :
    styleFlagsList (hideOverlaysList l) =
      (styleFlagsList l).map (fun p => (p.1, p.2 || p.1)) := by
  cases l with
  | nil => rfl
  | cons d ds =>
    rw [hideOverlaysList, styleFlagsList, styleFlagsList, List.map_append,
      styleFlags_hideOverlays d, styleFlagsList_hideOverlays ds]

end

/-- **C3.** The hide step hides exactly the nodes tagged by the pre-hide scan:
after `hideOverlays`, the rects reaching the coverage computation are exactly
the rendered rects with every tagged element's subtree excluded (so a tagged
element's rect and all of its descendants' rects are gone), the style of every
untagged element is unchanged (an element's hidden-flag becomes `h || tagged`,
which equals `h` whenever the element is untagged), and consequently the
post-hide fold coverage equals the coverage of the untagged rendered rects. -/
theorem hideOverlays_hides_exactly_tagged (vw vh : ℚ) (d : DomTree) :
    visRects (hideOverlays d) = visRectsExclTagged d ∧
    styleFlags (hideOverlays d) = (styleFlags d).map (fun p => (p.1, p.2 || p.1)) ∧
    foldCoveragePct vw vh (visRects (hideOverlays d)) =
      foldCoveragePct vw vh (visRectsExclTagged d) := by
  refine ⟨visRects_hideOverlays d, styleFlags_hideOverlays d, ?_⟩
  rw [visRects_hideOverlays d]

/-! ## SSRF guard (src/index.js lines 43-115)

`assertUrlAllowed(raw)` parses the URL (external `new URL`; modelled by the
already-extracted `protocol` and `hostname`), checks the scheme, checks three
literal hostnames, then DNS-resolves A and AAAA records (external; modelled by
two oracle parameters, `none` standing for the `catch {}`-swallowed resolution
failure or timeout) and checks every resolved address against fixed CIDR
lists. -/

/-- `parseInt(s, 10)` on digit-only input: value of the longest leading digit
run.  A run-less input gives `NaN` in JS; every use here feeds the value into
a byte truncation or an unsigned shift, both of which send `NaN` to `0`, so
the model returns `0` there. -/
def parseDigitsAux (base : ℕ) (dig : Char → Option ℕ) : List Char → ℕ → ℕ
  | [], acc => acc
  | c :: rest, acc =>
    match dig c with
    | some d => parseDigitsAux base dig rest (acc * base + d)
    | none => acc

def decDigit (c : Char) : Option ℕ :=
  if c.isDigit then some (c.toNat - 48) else none

def hexDigit (c : Char) : Option ℕ :=
  if c.isDigit then some (c.toNat - 48)
  else if 'a' ≤ c ∧ c ≤ 'f' then some (c.toNat - 87)
  else if 'A' ≤ c ∧ c ≤ 'F' then some (c.toNat - 55)
  else none

def jsParseDec (s : String) : ℕ := parseDigitsAux 10 decDigit s.data 0

def jsParseHexU (s : String) : ℕ := parseDigitsAux 16 hexDigit s.data 0

/-- JS `String.prototype.split` with a one-character separator. -/
def splitChar (sep : Char) : List Char → List (List Char)
  | [] => [[]]
  | c :: rest =>
    match splitChar sep rest with
    | [] => [[]]
    | g :: gs => if c = sep then [] :: g :: gs else (c :: g) :: gs

def splitStr (s : String) (sep : Char) : List String :=
  (splitChar sep s.data).map (fun l => ⟨l⟩)

/-- JS `padStart(4, "0")`. -/
def padStart4 (s : String) : String :=
  if s.length < 4 then ⟨List.replicate (4 - s.length) '0' ++ s.data⟩ else s

/-- `PRIVATE_CIDRS` (src/index.js lines 43-50). -/
def PRIVATE_CIDRS : List String :=
  ["127.0.0.0/8", "10.0.0.0/8", "172.16.0.0/12", "192.168.0.0/16",
   "0.0.0.0/8", "169.254.0.0/16"]

/-- `PRIVATE_V6` (src/index.js lines 65-69). -/
def PRIVATE_V6 : List String := ["::1/128", "fc00::/7", "fe80::/10"]

/-- `net.isIP(ip) === 4`: a dotted quad of 1-3 decimal digits each ≤ 255
(the resolver only ever hands back canonical quads, for which this matches
Node's check). -/
def isIPv4 (s : String) : Bool :=
  let parts := splitStr s '.'
  parts.length = 4 && parts.all
    (fun p => p.length > 0 && p.length ≤ 3 && p.data.all Char.isDigit &&
      jsParseDec p ≤ 255)

/-- `ipV4ToBuf` (src/index.js line 52): `Buffer.from(ip.split(".").map(parseInt))`;
`Buffer.from` truncates each entry to a byte. -/
def ipV4ToBuf (ip : String) : List ℕ :=
  (splitStr ip '.').map (fun p => jsParseDec p % 256)

/-- `bufToInt` (src/index.js line 53): `(b[0]<<24)|(b[1]<<16)|(b[2]<<8)|b[3]`,
read as the unsigned 32-bit pattern (the JS value is the same pattern viewed
as a signed 32-bit integer, and it is only ever compared for equality after
masking). -/
def bufToInt (b : List ℕ) : ℕ :=
  b.getD 0 0 * 2 ^ 24 + b.getD 1 0 * 2 ^ 16 + b.getD 2 0 * 2 ^ 8 + b.getD 3 0

/-- The JS mask `~((1 << (32 - bits)) - 1)` viewed as the unsigned 32-bit
pattern: the top `bits` bits set. -/
def cidrMask (bits : ℕ) : ℕ := 2 ^ 32 - 2 ^ (32 - bits)

/-- `ipInCidr` (src/index.js lines 54-62). -/
def ipInCidr (ip cidr : String) : Bool :=
  let parts := splitStr cidr '/'
  let range := parts.getD 0 ""
  let bits := jsParseDec (parts.getD 1 "")
  if isIPv4 ip then
    decide ((bufToInt (ipV4ToBuf ip)) &&& cidrMask bits =
      (bufToInt (ipV4ToBuf range)) &&& cidrMask bits)
  else false

/-- The block-comparison loop of `ipInCidr6` (src/index.js lines 77-85):
for each block index, while `bitsLeft > 0`, compare
`parseInt(blocks[i], 16) >>> (16 - take)` on both sides, where `take =
min 16 bitsLeft`; an out-of-range index gives `parseInt(undefined, 16) = NaN`
and `NaN >>> k = 0`, which is what `jsParseDec`-style parsing of `""` returns,
and `>>>` first coerces to an unsigned 32-bit value (`% 2^32`). -/
def cidr6Go (ipB baseB : List String) : List ℕ → ℕ → Bool
  | [], _ => true
  | i :: rest, bitsLeft =>
    if bitsLeft = 0 then true
    else
      let take := min 16 bitsLeft
      let ipPart := (jsParseHexU (ipB.getD i "") % 2 ^ 32) / 2 ^ (16 - take)
      let basePart := (jsParseHexU (baseB.getD i "") % 2 ^ 32) / 2 ^ (16 - take)
      if ipPart ≠ basePart then false
      else cidr6Go ipB baseB rest (bitsLeft - take)

/-- `ipInCidr6` (src/index.js lines 71-86).  The `net.isIP(ip) !== 6` guard is
modelled as passing: the function is only applied to `dns.resolve6` output,
which is always a valid IPv6 literal. -/
def ipInCidr6 (ip cidr : String) : Bool :=
  let parts := splitStr cidr '/'
  let base := parts.getD 0 ""
  let bits := jsParseDec (parts.getD 1 "")
  let ipBlocks := (splitStr ip ':').map padStart4
  let baseBlocks := (splitStr base ':').map padStart4
  cidr6Go ipBlocks baseBlocks [0, 1, 2, 3, 4, 5, 6, 7] bits

/-- An error thrown by the guard (`Object.assign(new Error(msg), {status})`). -/
structure SsrfErr where
  status : ℕ
  msg : String
deriving DecidableEq, Repr

/-- `assertUrlAllowed` (src/index.js lines 88-115) after URL parsing:
`protocol`/`host` are `u.protocol` and `u.hostname`; `v4`/`v6` are the
`dns.resolve4`/`dns.resolve6` results, `none` when resolution failed or timed
out (the `catch {}` leaves the corresponding list empty).  The per-address
loops throw on the first private match; accept/reject is rendered with `any`
(the two v6 throw messages are merged into one). -/
def assertUrlAllowed (protocol host : String) (v4 v6 : Option (List String)) :
    Except SsrfErr Unit :=
  if ¬ (protocol = "http:" ∨ protocol = "https:") then
    .error ⟨422, "Only http/https allowed"⟩
  else if lowerStr host = "localhost" ∨ lowerStr host = "127.0.0.1" ∨
      lowerStr host = "::1" then
    .error ⟨422, "Localhost blocked"⟩
  else if (v4.getD []).any (fun ip => PRIVATE_CIDRS.any (fun c => ipInCidr ip c)) then
    .error ⟨422, "Private network blocked (v4)"⟩
  else if (v6.getD []).any
      (fun ip => ip == "::1" || PRIVATE_V6.any (fun c => ipInCidr6 ip c)) then
    .error ⟨422, "Private network blocked (v6)"⟩
  else
    .ok ()

/-- The guard rejected with the distinct policy status 422. -/
def isPolicyBlocked (r : Except SsrfErr Unit) : Prop :=
  ∃ e, r = Except.error e ∧ e.status = 422

lemma land_high_mask (x k : ℕ) (hx : x < 2 ^ 32) (hk : k ≤ 32) :
    x &&& (2 ^ 32 - 2 ^ k) = 2 ^ k * (x / 2 ^ k) := by
  have hmask : (2 ^ 32 - 2 ^ k : ℕ) = (2 ^ (32 - k) - 1) <<< k := by
    rw [Nat.shiftLeft_eq, Nat.sub_mul, ← Nat.pow_add, one_mul]
    congr 2
    omega
  have hr : 2 ^ k * (x / 2 ^ k) = (x >>> k) <<< k := by
    rw [Nat.shiftRight_eq_div_pow, Nat.shiftLeft_eq]
    ring
  rw [hmask, hr]
  apply Nat.eq_of_testBit_eq
  intro i
  rw [Nat.testBit_land, Nat.testBit_shiftLeft, Nat.testBit_shiftLeft,
    Nat.testBit_shiftRight, Nat.testBit_two_pow_sub_one]
  by_cases hik : k ≤ i
  · have hki : k + (i - k) = i := by omega
    simp only [ge_iff_le, hik, decide_True, Bool.true_and, hki]
    by_cases hiw : i < 32
    · simp [show i - k < 32 - k by omega]
    · have hxi : x.testBit i = false :=
        Nat.testBit_lt_two_pow (lt_of_lt_of_le hx (Nat.pow_le_pow_right (by norm_num) (by omega)))
      simp [hxi]
  · simp [hik]

lemma ipV4ToBuf_bytes_lt (ip : String) : ∀ x ∈ ipV4ToBuf ip, x < 256 := by
  intro x hx
  simp only [ipV4ToBuf, List.mem_map] at hx
  obtain ⟨p, _, rfl⟩ := hx
  exact Nat.mod_lt _ (by norm_num)

lemma bufToInt_quad (a b c d : ℕ) :
    bufToInt [a, b, c, d] = a * 2 ^ 24 + b * 2 ^ 16 + c * 2 ^ 8 + d := rfl

lemma bufToInt_quad_lt (a b c d : ℕ) (ha : a < 256) (hb : b < 256) (hc : c < 256)
    (hd : d < 256) : bufToInt [a, b, c, d] < 2 ^ 32 := by
  rw [bufToInt_quad]
  norm_num
  omega

lemma quad_div24 (a b c d : ℕ) (hb : b < 256) (hc : c < 256) (hd : d < 256) :
    bufToInt [a, b, c, d] / 2 ^ 24 = a := by
  rw [bufToInt_quad]
  norm_num
  omega

lemma quad_div20 (a b c d : ℕ) (hb : b < 256) (hc : c < 256) (hd : d < 256) :
    bufToInt [a, b, c, d] / 2 ^ 20 = a * 16 + b / 16 := by
  rw [bufToInt_quad]
  norm_num
  omega

lemma quad_div16 (a b c d : ℕ) (hb : b < 256) (hc : c < 256) (hd : d < 256) :
    bufToInt [a, b, c, d] / 2 ^ 16 = a * 256 + b := by
  rw [bufToInt_quad]
  norm_num
  omega

lemma ipInCidr_core (ip cidr range bitsS : String) (bits : ℕ) (a b c d : ℕ)
    (h4 : isIPv4 ip = true) (hq : ipV4ToBuf ip = [a, b, c, d])
    (hsp : splitStr cidr '/' = [range, bitsS]) (hbits : jsParseDec bitsS = bits)
    (hble : bits ≤ 32)
    (hdiv : bufToInt [a, b, c, d] / 2 ^ (32 - bits) =
      bufToInt (ipV4ToBuf range) / 2 ^ (32 - bits))
    (hrlt : bufToInt (ipV4ToBuf range) < 2 ^ 32) :
    ipInCidr ip cidr = true := by
  have hbytes := ipV4ToBuf_bytes_lt ip
  rw [hq] at hbytes
  have ha : a < 256 := hbytes a (by simp)
  have hb : b < 256 := hbytes b (by simp)
  have hc : c < 256 := hbytes c (by simp)
  have hd : d < 256 := hbytes d (by simp)
  unfold ipInCidr
  rw [hsp]
  simp only [List.getD_cons_zero, List.getD_cons_succ, h4, if_true, hbits,
    decide_eq_true_eq, hq]
  have hmask : cidrMask bits = 2 ^ 32 - 2 ^ (32 - bits) := rfl
  rw [hmask, land_high_mask _ _ (bufToInt_quad_lt a b c d ha hb hc hd) (by omega),
    land_high_mask _ _ hrlt (by omega), hdiv]

lemma ipInCidr_127 (ip : String) (a b c d : ℕ) (h4 : isIPv4 ip = true)
    (hq : ipV4ToBuf ip = [a, b, c, d]) (ha : a = 127) :
    ipInCidr ip "127.0.0.0/8" = true := by
  have hbytes := ipV4ToBuf_bytes_lt ip
  rw [hq] at hbytes
  refine ipInCidr_core ip _ "127.0.0.0" "8" 8 a b c d h4 hq (by decide) (by decide)
    (by norm_num) ?_ (by decide)
  rw [show (32 - 8) = 24 from rfl,
    quad_div24 a b c d (hbytes b (by simp)) (hbytes c (by simp)) (hbytes d (by simp)), ha]
  decide

lemma ipInCidr_10 (ip : String) (a b c d : ℕ) (h4 : isIPv4 ip = true)
    (hq : ipV4ToBuf ip = [a, b, c, d]) (ha : a = 10) :
    ipInCidr ip "10.0.0.0/8" = true := by
  have hbytes := ipV4ToBuf_bytes_lt ip
  rw [hq] at hbytes
  refine ipInCidr_core ip _ "10.0.0.0" "8" 8 a b c d h4 hq (by decide) (by decide)
    (by norm_num) ?_ (by decide)
  rw [show (32 - 8) = 24 from rfl,
    quad_div24 a b c d (hbytes b (by simp)) (hbytes c (by simp)) (hbytes d (by simp)), ha]
  decide

lemma ipInCidr_172 (ip : String) (a b c d : ℕ) (h4 : isIPv4 ip = true)
    (hq : ipV4ToBuf ip = [a, b, c, d]) (ha : a = 172) (hb1 : 16 ≤ b) (hb2 : b ≤ 31) :
    ipInCidr ip "172.16.0.0/12" = true := by
  have hbytes := ipV4ToBuf_bytes_lt ip
  rw [hq] at hbytes
  refine ipInCidr_core ip _ "172.16.0.0" "12" 12 a b c d h4 hq (by decide) (by decide)
    (by norm_num) ?_ (by decide)
  rw [show (32 - 12) = 20 from rfl,
    quad_div20 a b c d (hbytes b (by simp)) (hbytes c (by simp)) (hbytes d (by simp)), ha]
  have : b / 16 = 1 := by omega
  rw [this]
  decide

lemma ipInCidr_192 (ip : String) (a b c d : ℕ) (h4 : isIPv4 ip = true)
    (hq : ipV4ToBuf ip = [a, b, c, d]) (ha : a = 192) (hb : b = 168) :
    ipInCidr ip "192.168.0.0/16" = true := by
  have hbytes := ipV4ToBuf_bytes_lt ip
  rw [hq] at hbytes
  refine ipInCidr_core ip _ "192.168.0.0" "16" 16 a b c d h4 hq (by decide) (by decide)
    (by norm_num) ?_ (by decide)
  rw [show (32 - 16) = 16 from rfl,
    quad_div16 a b c d (hbytes b (by simp)) (hbytes c (by simp)) (hbytes d (by simp)),
    ha, hb]
  decide

/-- The parsed value of the first hextet of a v6 literal, exactly as the
comparison loop computes it: first `":"`-separated block, padded to four
characters, hex-parsed. -/
def hexBlock0 (ip : String) : ℕ :=
  jsParseHexU (padStart4 ((splitStr ip ':').getD 0 ""))

lemma splitChar_ne_nil (sep : Char) (l : List Char) : splitChar sep l ≠ [] := by
  cases l with
  | nil => simp [splitChar]
  | cons c rest =>
    unfold splitChar
    cases h : splitChar sep rest with
    | nil => simp
    | cons g gs =>
      by_cases hc : c = sep <;> simp [hc]

lemma splitStr_ne_nil (s : String) (c : Char) : splitStr s c ≠ [] := by
  unfold splitStr
  intro h
  exact splitChar_ne_nil c s.data (List.map_eq_nil_iff.mp h)

lemma ipBlocks_getD_zero (ip : String) :
    ((splitStr ip ':').map padStart4).getD 0 "" =
      padStart4 ((splitStr ip ':').getD 0 "") := by
  cases h : splitStr ip ':' with
  | nil => exact absurd h (splitStr_ne_nil ip ':')
  | cons x xs => simp

lemma ipInCidr6_fc00 (ip : String) (hb : hexBlock0 ip < 2 ^ 16)
    (h7 : hexBlock0 ip / 2 ^ 9 = 126) : ipInCidr6 ip "fc00::/7" = true := by
  unfold ipInCidr6
  rw [show splitStr "fc00::/7" '/' = ["fc00::", "7"] from by decide]
  simp only [List.getD_cons_zero, List.getD_cons_succ,
    show jsParseDec "7" = 7 from by decide,
    show (splitStr "fc00::" ':').map padStart4 = ["fc00", "0000", "0000"] from by decide]
  unfold cidr6Go
  rw [ipBlocks_getD_zero ip]
  have hmod : jsParseHexU (padStart4 ((splitStr ip ':').getD 0 "")) % 2 ^ 32 =
      hexBlock0 ip := Nat.mod_eq_of_lt (lt_trans hb (by norm_num))
  simp only [show (7 : ℕ) ≠ 0 from by norm_num, if_false, show min 16 7 = 7 from rfl,
    show (16 - 7 : ℕ) = 9 from rfl, hmod, h7,
    show (jsParseHexU "fc00" % 2 ^ 32) / 2 ^ 9 = 126 from by decide]
  norm_num [cidr6Go]
  decide

lemma ipInCidr6_fe80 (ip : String) (hb : hexBlock0 ip < 2 ^ 16)
    (h10 : hexBlock0 ip / 2 ^ 6 = 1018) : ipInCidr6 ip "fe80::/10" = true := by
  unfold ipInCidr6
  rw [show splitStr "fe80::/10" '/' = ["fe80::", "10"] from by decide]
  simp only [List.getD_cons_zero, List.getD_cons_succ,
    show jsParseDec "10" = 10 from by decide,
    show (splitStr "fe80::" ':').map padStart4 = ["fe80", "0000", "0000"] from by decide]
  unfold cidr6Go
  rw [ipBlocks_getD_zero ip]
  have hmod : jsParseHexU (padStart4 ((splitStr ip ':').getD 0 "")) % 2 ^ 32 =
      hexBlock0 ip := Nat.mod_eq_of_lt (lt_trans hb (by norm_num))
  simp only [show (10 : ℕ) ≠ 0 from by norm_num, if_false, show min 16 10 = 10 from rfl,
    show (16 - 10 : ℕ) = 6 from rfl, hmod, h10,
    show (jsParseHexU "fe80" % 2 ^ 32) / 2 ^ 6 = 1018 from by decide]
  norm_num [cidr6Go]
  decide

/-- The byte-level reading of the claim's address set
`{127.0.0.1, 10.0.0.0/8, 172.16.0.0/12, 192.168.0.0/16}` (its IPv4 part). -/
def claimedPrivateV4 (a b c d : ℕ) : Prop :=
  (a = 127 ∧ b = 0 ∧ c = 0 ∧ d = 1) ∨ a = 10 ∨
  (a = 172 ∧ 16 ≤ b ∧ b ≤ 31) ∨ (a = 192 ∧ b = 168)

/-- The claim's v6 set `{::1, fc00::/7, fe80::/10}`: the literal loopback
string, or a first hextet whose top 7 bits are those of `fc00` (`/2^9 = 126`)
or whose top 10 bits are those of `fe80` (`/2^6 = 1018`). -/
def claimedPrivateV6 (ip : String) : Prop :=
  ip = "::1" ∨ (hexBlock0 ip < 2 ^ 16 ∧
    (hexBlock0 ip / 2 ^ 9 = 126 ∨ hexBlock0 ip / 2 ^ 6 = 1018))

/-- **C2, counterexample.** The address `10.0.0.1` lies in `10.0.0.0/8`, yet a
request whose URL carries it as a *literal* host is not rejected: the literal
check only tests the exact strings `localhost`/`127.0.0.1`/`::1`, and DNS
resolution of an IPv4 literal is not a resolvable name (both lookups fail and
are swallowed by `catch {}`), so the guard returns the URL as allowed. -/
theorem assertUrlAllowed_literal_private_allowed :
    (assertUrlAllowed "http:" "10.0.0.1" none none).isOk = true ∧
    ipInCidr "10.0.0.1" "10.0.0.0/8" = true := by
  constructor
  · decide
  · decide

/-- **C2, amended.** The guard rejects, with the policy status 422: the
literal hosts `127.0.0.1` and `::1` (and `localhost`); every DNS-resolved
IPv4 address lying in the claimed ranges; and every DNS-resolved IPv6 address
in the claimed v6 set.  (A private-range address other than the exact strings
`127.0.0.1`/`::1` written literally as the host is *not* rejected when
resolution yields nothing, as the counterexample shows.) -/
theorem assertUrlAllowed_blocks_private (protocol host : String)
    (v4 v6 : Option (List String)) :
    ((lowerStr host = "127.0.0.1" ∨ lowerStr host = "::1") →
      isPolicyBlocked (assertUrlAllowed protocol host v4 v6)) ∧
    (∀ l ip a b c d, v4 = some l → ip ∈ l → isIPv4 ip = true →
      ipV4ToBuf ip = [a, b, c, d] → claimedPrivateV4 a b c d →
      isPolicyBlocked (assertUrlAllowed protocol host v4 v6)) ∧
    (∀ l ip, v6 = some l → ip ∈ l → claimedPrivateV6 ip →
      isPolicyBlocked (assertUrlAllowed protocol host v4 v6)) := by
  refine ⟨?_, ?_, ?_⟩
  · intro hlit
    unfold assertUrlAllowed
    split
    · exact ⟨_, rfl, rfl⟩
    · split
      · exact ⟨_, rfl, rfl⟩
      · rename_i hno
        exact absurd (Or.inr hlit) hno
  · intro l ip a b c d hv4 hmem h4 hq hpriv
    unfold assertUrlAllowed
    split
    · exact ⟨_, rfl, rfl⟩
    split
    · exact ⟨_, rfl, rfl⟩
    split
    · exact ⟨_, rfl, rfl⟩
    rename_i hany
    exfalso
    apply hany
    subst hv4
    simp only [Option.getD_some]
    rw [List.any_eq_true]
    refine ⟨ip, hmem, ?_⟩
    rw [List.any_eq_true]
    rcases hpriv with ⟨ha, hb, hc, hd⟩ | ha | ⟨ha, hb1, hb2⟩ | ⟨ha, hb⟩
    · exact ⟨"127.0.0.0/8", by decide, ipInCidr_127 ip a b c d h4 hq ha⟩
    · exact ⟨"10.0.0.0/8", by decide, ipInCidr_10 ip a b c d h4 hq ha⟩
    · exact ⟨"172.16.0.0/12", by decide, ipInCidr_172 ip a b c d h4 hq ha hb1 hb2⟩
    · exact ⟨"192.168.0.0/16", by decide, ipInCidr_192 ip a b c d h4 hq ha hb⟩
  · intro l ip hv6 hmem hpriv
    unfold assertUrlAllowed
    split
    · exact ⟨_, rfl, rfl⟩
    split
    · exact ⟨_, rfl, rfl⟩
    split
    · exact ⟨_, rfl, rfl⟩
    split
    · exact ⟨_, rfl, rfl⟩
    rename_i hany
    exfalso
    apply hany
    subst hv6
    simp only [Option.getD_some]
    rw [List.any_eq_true]
    refine ⟨ip, hmem, ?_⟩
    rcases hpriv with h1 | ⟨hlt, h7 | h10⟩
    · subst h1
      simp
    · rw [Bool.or_eq_true]
      right
      rw [List.any_eq_true]
      exact ⟨"fc00::/7", by decide, ipInCidr6_fc00 ip hlt h7⟩
    · rw [Bool.or_eq_true]
      right
      rw [List.any_eq_true]
      exact ⟨"fe80::/10", by decide, ipInCidr6_fe80 ip hlt h10⟩

/-- Witness for the amended C2: a resolved `10.1.2.3` A record is rejected. -/
theorem assertUrlAllowed_blocks_private_witness :
    ("10.1.2.3" ∈ ["10.1.2.3"] ∧ isIPv4 "10.1.2.3" = true ∧
      ipV4ToBuf "10.1.2.3" = [10, 1, 2, 3] ∧ claimedPrivateV4 10 1 2 3) ∧
    isPolicyBlocked (assertUrlAllowed "http:" "internal.example"
      (some ["10.1.2.3"]) none) :=
  ⟨⟨by decide, by decide, by decide, Or.inr (Or.inl rfl)⟩,
    (assertUrlAllowed_blocks_private "http:" "internal.example"
        (some ["10.1.2.3"]) none).2.1 ["10.1.2.3"] "10.1.2.3" 10 1 2 3 rfl
      (by decide) (by decide) (by decide) (Or.inr (Or.inl rfl))⟩

/-- **C6.** DNS resolution failure never by itself rejects: the guard behaves
exactly as if an empty address list had been resolved (fail-open), for either
family; while any successfully-resolved address matching the private CIDR
check always yields the 422 policy rejection (fail-closed). -/
theorem dns_fail_open_match_fail_closed (protocol host : String)
    (v4 v6 : Option (List String)) :
    (∀ w6, assertUrlAllowed protocol host none w6 =
      assertUrlAllowed protocol host (some []) w6) ∧
    (∀ w4, assertUrlAllowed protocol host w4 none =
      assertUrlAllowed protocol host w4 (some [])) ∧
    (∀ l ip, v4 = some l → ip ∈ l →
      PRIVATE_CIDRS.any (fun c => ipInCidr ip c) = true →
      isPolicyBlocked (assertUrlAllowed protocol host v4 v6)) ∧
    (∀ l ip, v6 = some l → ip ∈ l →
      (ip == "::1" || PRIVATE_V6.any (fun c => ipInCidr6 ip c)) = true →
      isPolicyBlocked (assertUrlAllowed protocol host v4 v6)) := by
  refine ⟨fun w6 => rfl, fun w4 => rfl, ?_, ?_⟩
  · intro l ip hv4 hmem hmatch
    unfold assertUrlAllowed
    split
    · exact ⟨_, rfl, rfl⟩
    split
    · exact ⟨_, rfl, rfl⟩
    split
    · exact ⟨_, rfl, rfl⟩
    rename_i hany
    exfalso
    apply hany
    subst hv4
    simp only [Option.getD_some]
    rw [List.any_eq_true]
    exact ⟨ip, hmem, hmatch⟩
  · intro l ip hv6 hmem hmatch
    unfold assertUrlAllowed
    split
    · exact ⟨_, rfl, rfl⟩
    split
    · exact ⟨_, rfl, rfl⟩
    split
    · exact ⟨_, rfl, rfl⟩
    split
    · exact ⟨_, rfl, rfl⟩
    rename_i hany
    exfalso
    apply hany
    subst hv6
    simp only [Option.getD_some]
    rw [List.any_eq_true]
    exact ⟨ip, hmem, hmatch⟩

/-- Witness for C6: a resolved `192.168.1.5` A record is rejected. -/
theorem dns_fail_open_match_fail_closed_witness :
    ("192.168.1.5" ∈ ["192.168.1.5"] ∧
      PRIVATE_CIDRS.any (fun c => ipInCidr "192.168.1.5" c) = true) ∧
    isPolicyBlocked (assertUrlAllowed "https:" "router.example"
      (some ["192.168.1.5"]) none) :=
  ⟨⟨by decide, by decide⟩,
    (dns_fail_open_match_fail_closed "https:" "router.example"
        (some ["192.168.1.5"]) none).2.2.1 ["192.168.1.5"] "192.168.1.5" rfl
      (by decide) (by decide)⟩

/-! ## Pre-hide overlay scan (src/index.js lines 244-319)

The in-page scan enumerates elements with the layout facts the script reads:
computed `position`/`visibility`/`display`/`opacity` (the last compared as the
*string* `"0"`), the bounding rect, `innerText`, and the count of
`button,a,[role='button']` descendants. -/

structure ScanElem where
  position : String
  visibility : String
  display : String
  opacityStr : String
  left : ℚ
  top : ℚ
  width : ℚ
  height : ℚ
  innerText : String
  btnCount : ℕ
deriving DecidableEq, Repr

def ScanElem.right (e : ScanElem) : ℚ := e.left + e.width

def ScanElem.bottom (e : ScanElem) : ℚ := e.top + e.height

/-- `isVisible` of the pre-hide scan (src/index.js lines 258-264). -/
def preIsVisible (vw vh : ℚ) (e : ScanElem) : Bool :=
  if e.visibility = "hidden" || e.display = "none" || e.opacityStr = "0" then false
  else if e.width ≤ 0 || e.height ≤ 0 then false
  else decide (e.top < vh) && decide (e.left < vw) &&
    decide (e.bottom > 0) && decide (e.right > 0)

/-- The candidate filter (src/index.js lines 265-288). -/
def isOverlayCandidate (vw vh : ℚ) (e : ScanElem) : Bool :=
  if ¬ (e.position = "fixed" ∨ e.position = "sticky") then false
  else if ¬ (preIsVisible vw vh e = true) then false
  else
    let inFoldWidth := max 0 (min e.right vw - max e.left 0)
    let inFoldHeight := max 0 (min e.bottom vh - max e.top 0)
    let inFoldArea := inFoldWidth * inFoldHeight
    let txt := lowerStr e.innerText
    let looksLikeCookie := jsIncludes txt "cookie" || jsIncludes txt "consent" ||
      jsIncludes txt "accept all" || jsIncludes txt "agree"
    let wideBar := decide (inFoldWidth / vw ≥ 6 / 10)
    let likelyBar := decide (e.height ≥ 48) && decide (e.top ≥ vh - 220) &&
      wideBar && decide (e.btnCount ≥ 2)
    if looksLikeCookie then true
    else if likelyBar then true
    else decide (inFoldArea / (vw * vh) ≥ 20 / 100)

/-- The clipped, rounded overlay rect of a candidate (src/index.js
lines 293-299). -/
def clipOverlayRect (vw vh : ℚ) (e : ScanElem) : ℤ × ℤ × ℤ × ℤ :=
  let x := max 0 e.left
  let y := max 0 e.top
  let w := min vw e.right - x
  let h := min vh e.bottom - y
  (max 0 (jsRound x), max 0 (jsRound y), max 0 (jsRound w), max 0 (jsRound h))

/-- The value returned by the scan (src/index.js lines 293-309), plus the
`_preHideTimedOut` flag attached on return (lines 311, 315). -/
structure PreOut where
  overlayRects : List (ℤ × ℤ × ℤ × ℤ)
  overlayElemsMarked : ℕ
  overlayCoveragePct : ℤ
  overlayBlockers : ℕ
  timedOut : Bool
deriving DecidableEq, Repr

/-- The pre-hide scan: filter candidates (these are the elements that get the
`data-foldy-overlay-candidate` tag), clip their rects, and derive the overlay
metrics; `overlayBlockers = candidates.length > 0 ? 1 : 0`. -/
def preHideScan (vw vh : ℚ) (els : List ScanElem) : PreOut :=
  let candidates := els.filter (fun e => isOverlayCandidate vw vh e)
  let overlayRects := (candidates.map (fun e => clipOverlayRect vw vh e)).filter
    (fun r => r.2.2.1 > 0 && r.2.2.2 > 0)
  let overlayArea : ℤ := (overlayRects.map (fun r => r.2.2.1 * r.2.2.2)).sum
  { overlayRects := overlayRects
    overlayElemsMarked := candidates.length
    overlayCoveragePct := min 100 (jsRound ((overlayArea : ℚ) / (vw * vh) * 100))
    overlayBlockers := if candidates.length > 0 then 1 else 0
    timedOut := false }

/-! ## The `/render` handler pipeline (src/index.js lines 784-959)

Engine calls (launch, `newContext`, `newPage`, `goto`, the four in-page
stages, the screenshots) are external; each stage's outcome, as observed
through its `withTimeout` wrapper, is an oracle `Except` parameter (a timeout
surfaces as an error with status 504; other engine failures keep their own
status, 500 when absent).  URL parsing (`new URL`) is the `parsed` oracle. -/

structure StageErr where
  status : ℕ
  msg : String
deriving DecidableEq, Repr

instance {ε α : Type} [DecidableEq ε] [DecidableEq α] : DecidableEq (Except ε α) :=
  fun x y =>
  match x, y with
  | .ok a, .ok b =>
    if h : a = b then .isTrue (congrArg _ h)
    else .isFalse (fun hh => h (Except.ok.inj hh))
  | .error a, .error b =>
    if h : a = b then .isTrue (congrArg _ h)
    else .isFalse (fun hh => h (Except.error.inj hh))
  | .ok _, .error _ => .isFalse (fun hh => Except.noConfusion hh)
  | .error _, .ok _ => .isFalse (fun hh => Except.noConfusion hh)

/-- The `ux` record computed by `cleanAudit` (src/index.js lines 702-713),
taken as the audit stage's oracle value. -/
structure UxEval where
  firstCtaInFold : Bool
  foldCoveragePct : ℤ
  visibleFoldCoveragePct : ℤ
  paintedCoveragePct : ℤ
  maxFontPx : ℤ
  minFontPx : ℤ
  smallTapTargets : ℕ
  hasViewportMeta : Bool
  usesSafeAreaCSS : Bool
deriving DecidableEq, Repr

/-- The `ux` object of the response payload (src/index.js lines 915-920):
the clean-audit record plus the three overlay fields from the pre-hide
result. -/
structure UxPayload where
  ux : UxEval
  overlayCoveragePct : ℤ
  overlayBlockers : ℕ
  overlayElemsMarked : ℕ
deriving DecidableEq, Repr

/-- A device profile (src/index.js lines 136-188). -/
structure Device where
  label : String
  viewportW : ℕ
  viewportH : ℕ
  dpr : ℚ
  ua : String
  mobile : Bool
deriving DecidableEq, Repr

/-- `DEVICES` (src/index.js lines 136-172). -/
def DEVICES : List (String × Device) :=
  [("iphone_15_pro", ⟨"iPhone 15 Pro", 393, 852, 3,
    "Mozilla/5.0 (iPhone; CPU iPhone OS 17_0 like Mac OS X) AppleWebKit/605.1.15 (KHTML, like Gecko) Version/17.0 Mobile/15E148 Safari/604.1", true⟩),
   ("iphone_15_pro_max", ⟨"iPhone 15 Pro Max", 430, 932, 3,
    "Mozilla/5.0 (iPhone; CPU iPhone OS 17_0 like Mac OS X) AppleWebKit/605.1.15 (KHTML, like Gecko) Version/17.0 Mobile/15E148 Safari/604.1", true⟩),
   ("pixel_8", ⟨"Pixel 8", 412, 915, 2625 / 1000,
    "Mozilla/5.0 (Linux; Android 14; Pixel 8) AppleWebKit/537.36 (KHTML, like Gecko) Chrome/125.0.0.0 Mobile Safari/537.36", true⟩),
   ("galaxy_s23", ⟨"Galaxy S23", 360, 800, 3,
    "Mozilla/5.0 (Linux; Android 14; SM-S911B) AppleWebKit/537.36 (KHTML, like Gecko) Chrome/125.0.0.0 Mobile Safari/537.36", true⟩),
   ("iphone_se_2", ⟨"iPhone SE (2nd gen)", 375, 667, 2,
    "Mozilla/5.0 (iPhone; CPU iPhone OS 17_0 like Mac OS X) AppleWebKit/605.1.15 (KHTML, like Gecko) Version/17.0 Mobile/15E148 Safari/604.1", true⟩)]

/-- `deviceFromKey` (src/index.js lines 173-188): `DEVICES[key]`, `null` when
absent. -/
def deviceFromKey (key : String) : Option Device :=
  (DEVICES.find? (fun p => p.1 == key)).map Prod.snd

/-- Request parameters (src/index.js lines 807-811) together with the
external URL-parse and DNS oracles for the SSRF guard. -/
structure ReqParams where
  urlRaw : String
  deviceKey : String
  debugOverlay : Bool
  debugRects : Bool
  debugHeatmap : Bool
  parsed : Option (String × String)
  dns4 : Option (List String)
  dns6 : Option (List String)
deriving DecidableEq, Repr

/-- Stage outcome oracles, in pipeline order.  `pre` is the outcome of the
scan's `page.evaluate` promise: `.ok` its value, `.error` a rejection (its
own `PREHIDE_TIMEOUT`, the outer `withTimeout` rejection, or an engine
error). -/
structure StageOutcomes where
  launch : Except StageErr Unit
  newContext : Except StageErr Unit
  newPage : Except StageErr Unit
  nav : Except StageErr Unit
  pre : Except StageErr PreOut
  hide : Except StageErr Unit
  audit : Except StageErr UxEval
  shot : Except StageErr Unit
  heatmap : Except StageErr Unit
deriving DecidableEq, Repr

/-- An isolated browsing context: fresh id, empty cookie/storage state. -/
structure BrowserContext where
  id : ℕ
  storage : List (String × String)
deriving DecidableEq, Repr

/-- What the handler's execution exposes: HTTP status, the `ux` payload (only
on success), the `debugFlags.preHideTimedOut` flag, the `debug.overlayRects`
list (only with `debugRects`), whether `page.goto` was ever reached, the
context it used (if one was created) and whether the `finally` cleanup closed
it. -/
structure HandlerRes where
  status : ℕ
  ux : Option UxPayload
  preHideTimedOut : Option Bool
  debugOverlayRects : Option (List (ℤ × ℤ × ℤ × ℤ))
  navAttempted : Bool
  ctx : Option BrowserContext
  ctxClosed : Bool
deriving DecidableEq, Repr

/-- `assertUrlAllowed(raw)` including the `new URL(raw)` parse (src/index.js
line 90): parse failure throws the 400 `Invalid URL`. -/
def assertUrlAllowedReq (parsed : Option (String × String))
    (dns4 dns6 : Option (List String)) : Except SsrfErr Unit :=
  match parsed with
  | none => .error ⟨400, "Invalid URL"⟩
  | some (p, h) => assertUrlAllowed p h dns4 dns6

/-- The soft-fail wrapper inside `preHideOverlays` (src/index.js
lines 310-318): a rejection whose message contains `PREHIDE_TIMEOUT` becomes
the zeroed result with `_preHideTimedOut = true`; a success gets the flag set
to false; every other rejection bubbles up. -/
def preHideOverlaysStep (evalRes : Except StageErr PreOut) : Except StageErr PreOut :=
  match evalRes with
  | .ok r => .ok { r with timedOut := false }
  | .error e =>
    if jsIncludes e.msg "PREHIDE_TIMEOUT" then .ok ⟨[], 0, 0, 0, true⟩
    else .error e

/-- The `pre` value the handler ends up with (src/index.js lines 860-867):
the scan result, or — when the scan step rejected (its own timeout, the outer
watchdog, or an engine error) — the zeroed defaults with the flag set by the
`catch`. -/
def handlerPre (oc : StageOutcomes) : PreOut :=
  match preHideOverlaysStep oc.pre with
  | .ok p => p
  | .error _ => ⟨[], 0, 0, 0, true⟩

/-- The success payload (src/index.js lines 906-950). -/
def renderPayload (rp : ReqParams) (pre : PreOut) (ux : UxEval)
    (ctx : BrowserContext) : HandlerRes :=
  { status := 200
    ux := some ⟨ux, pre.overlayCoveragePct, pre.overlayBlockers, pre.overlayElemsMarked⟩
    preHideTimedOut := some pre.timedOut
    debugOverlayRects := if rp.debugRects then some pre.overlayRects else none
    navAttempted := true
    ctx := some ctx
    ctxClosed := true }

/-- The handler body once a context exists: every exit below runs the
`finally` cleanup (src/index.js lines 955-958), so `ctxClosed = true` on
every path. -/
def renderWithContext (rp : ReqParams) (oc : StageOutcomes)
    (ctx : BrowserContext) : HandlerRes :=
  match oc.newPage with
  | .error e => ⟨e.status, none, none, none, false, some ctx, true⟩
  | .ok _ =>
    match oc.nav with
    | .error e => ⟨e.status, none, none, none, true, some ctx, true⟩
    | .ok _ =>
      match oc.hide with
      | .error e => ⟨e.status, none, none, none, true, some ctx, true⟩
      | .ok _ =>
        match oc.audit with
        | .error e => ⟨e.status, none, none, none, true, some ctx, true⟩
        | .ok ux =>
          match oc.shot with
          | .error e => ⟨e.status, none, none, none, true, some ctx, true⟩
          | .ok _ =>
            if rp.debugHeatmap then
              match oc.heatmap with
              | .error e => ⟨e.status, none, none, none, true, some ctx, true⟩
              | .ok _ => renderPayload rp (handlerPre oc) ux ctx
            else renderPayload rp (handlerPre oc) ux ctx

/-- The `/render` handler (src/index.js lines 784-959).  `ctr` is the
process-wide context counter: a created context gets a fresh id and empty
storage, modelling `browser.newContext` isolation. -/
def renderHandler (rp : ReqParams) (oc : StageOutcomes) (ctr : ℕ) :
    HandlerRes × ℕ :=
  if rp.urlRaw = "" ∨ rp.deviceKey = "" then
    (⟨400, none, none, none, false, none, false⟩, ctr)
  else
    match assertUrlAllowedReq rp.parsed rp.dns4 rp.dns6 with
    | .error e => (⟨e.status, none, none, none, false, none, false⟩, ctr)
    | .ok _ =>
      match deviceFromKey rp.deviceKey with
      | none => (⟨400, none, none, none, false, none, false⟩, ctr)
      | some _ =>
        match oc.launch with
        | .error e => (⟨e.status, none, none, none, false, none, false⟩, ctr)
        | .ok _ =>
          match oc.newContext with
          | .error e => (⟨e.status, none, none, none, false, none, false⟩, ctr)
          | .ok _ => (renderWithContext rp oc ⟨ctr, []⟩, ctr + 1)

lemma renderWithContext_closes (rp : ReqParams) (oc : StageOutcomes)
    (c : BrowserContext) :
    (renderWithContext rp oc c).ctx = some c ∧
    (renderWithContext rp oc c).ctxClosed = true := by
  obtain ⟨l, nc, np, nv, pr, hdo, au, sh, hm⟩ := oc
  obtain ⟨ul, dk, dbo, dbr, dbh, pa, d4, d6⟩ := rp
  simp only [renderWithContext]
  cases np <;> cases nv <;> cases hdo <;> cases au <;> cases sh <;>
    cases dbh <;> cases hm <;> simp [renderPayload]

lemma renderHandler_cases (rp : ReqParams) (oc : StageOutcomes) (ctr : ℕ) :
    ((renderHandler rp oc ctr).1.ctx = none ∧ (renderHandler rp oc ctr).2 = ctr) ∨
    ((renderHandler rp oc ctr).1.ctx = some ⟨ctr, []⟩ ∧
      (renderHandler rp oc ctr).1.ctxClosed = true ∧
      (renderHandler rp oc ctr).2 = ctr + 1) := by
  unfold renderHandler
  split
  · exact Or.inl ⟨rfl, rfl⟩
  split
  · exact Or.inl ⟨rfl, rfl⟩
  split
  · exact Or.inl ⟨rfl, rfl⟩
  split
  · exact Or.inl ⟨rfl, rfl⟩
  split
  · exact Or.inl ⟨rfl, rfl⟩
  · refine Or.inr ⟨(renderWithContext_closes rp oc ⟨ctr, []⟩).1,
      (renderWithContext_closes rp oc ⟨ctr, []⟩).2, rfl⟩

/-- **C8.** Whenever a request creates a browsing context, the `finally`
cleanup closes it, on success, error and timeout paths alike; each created
context is fresh (id = the current counter, initially empty cookie/storage
state), so two sequentially processed requests never share a context or any
storage. -/
theorem context_closed_and_isolated (rp rp2 : ReqParams) (oc oc2 : StageOutcomes)
    (ctr : ℕ) :
    (∀ c, (renderHandler rp oc ctr).1.ctx = some c →
      (renderHandler rp oc ctr).1.ctxClosed = true ∧ c = ⟨ctr, []⟩ ∧
      (renderHandler rp oc ctr).2 = ctr + 1) ∧
    (∀ c c2, (renderHandler rp oc ctr).1.ctx = some c →
      (renderHandler rp2 oc2 ((renderHandler rp oc ctr).2)).1.ctx = some c2 →
      c.id ≠ c2.id ∧ c.storage = [] ∧ c2.storage = []) := by
  constructor
  · intro c hc
    rcases renderHandler_cases rp oc ctr with ⟨h1, h2⟩ | ⟨h1, h2, h3⟩
    · rw [h1] at hc; cases hc
    · rw [h1] at hc
      exact ⟨h2, (Option.some.inj hc).symm, h3⟩
  · intro c c2 hc hc2
    rcases renderHandler_cases rp oc ctr with ⟨h1, h2⟩ | ⟨h1, h2, h3⟩
    · rw [h1] at hc; cases hc
    rcases renderHandler_cases rp2 oc2 ((renderHandler rp oc ctr).2) with
      ⟨g1, g2⟩ | ⟨g1, g2, g3⟩
    · rw [g1] at hc2; cases hc2
    rw [h1] at hc
    rw [g1, h3] at hc2
    have e1 : c = ⟨ctr, []⟩ := (Option.some.inj hc).symm
    have e2 : c2 = ⟨ctr + 1, []⟩ := (Option.some.inj hc2).symm
    subst e1
    subst e2
    exact ⟨by simp, rfl, rfl⟩

/-- The request and stage oracles of a fully successful render, used to
exercise the pipeline theorems on concrete input. -/
def okReq : ReqParams :=
  ⟨"https://example.com/", "galaxy_s23", false, false, false,
    some ("https:", "example.com"), some ["93.184.216.34"], none⟩

def uxSample : UxEval := ⟨true, 50, 50, 100, 32, 12, 0, true, false⟩

def okStages : StageOutcomes :=
  ⟨.ok (), .ok (), .ok (), .ok (), .ok (preHideScan 360 800 []), .ok (),
    .ok uxSample, .ok (), .ok ()⟩

lemma okReq_reaches_context :
    (renderHandler okReq okStages 0).1.ctx = some ⟨0, []⟩ := by
  unfold renderHandler
  rw [if_neg (by simp [okReq])]
  rw [show assertUrlAllowedReq okReq.parsed okReq.dns4 okReq.dns6 = .ok () from
    by decide]
  cases hd : deviceFromKey okReq.deviceKey with
  | none => exact absurd hd (by decide)
  | some d => exact (renderWithContext_closes okReq okStages ⟨0, []⟩).1

/-- Witness for C8: a successful request creates context 0 and the cleanup
closes it. -/
theorem context_closed_and_isolated_witness :
    (renderHandler okReq okStages 0).1.ctx = some ⟨0, []⟩ ∧
    (renderHandler okReq okStages 0).1.ctxClosed = true :=
  ⟨okReq_reaches_context,
    ((context_closed_and_isolated okReq okReq okStages okStages 0).1 ⟨0, []⟩
      okReq_reaches_context).1⟩

/-- **C9.** With an unknown device key the pipeline never attempts navigation
(on any path), and — provided the URL is present and accepted by the SSRF
guard — the response is the 400 client error from the device check. -/
theorem unknown_device_400_no_nav (rp : ReqParams) (oc : StageOutcomes) (ctr : ℕ) :
    deviceFromKey rp.deviceKey = none →
    (renderHandler rp oc ctr).1.navAttempted = false ∧
    (assertUrlAllowedReq rp.parsed rp.dns4 rp.dns6 = .ok () →
      (renderHandler rp oc ctr).1.status = 400) := by
  intro hdev
  unfold renderHandler
  by_cases hu : rp.urlRaw = "" ∨ rp.deviceKey = ""
  · rw [if_pos hu]
    exact ⟨rfl, fun _ => rfl⟩
  · rw [if_neg hu]
    cases hg : assertUrlAllowedReq rp.parsed rp.dns4 rp.dns6 with
    | error e =>
      refine ⟨rfl, fun h => ?_⟩
      cases h
    | ok u =>
      cases u
      rw [hdev]
      exact ⟨rfl, fun _ => rfl⟩

/-- Witness for C9: requesting device key `unknown_device` with an allowed
URL yields 400 and no navigation attempt. -/
theorem unknown_device_400_no_nav_witness :
    deviceFromKey "unknown_device" = none ∧
    assertUrlAllowedReq (some ("https:", "example.com")) none none = .ok () ∧
    (renderHandler ⟨"https://example.com/", "unknown_device", false, false, false,
        some ("https:", "example.com"), none, none⟩ okStages 0).1.navAttempted
      = false ∧
    (renderHandler ⟨"https://example.com/", "unknown_device", false, false, false,
        some ("https:", "example.com"), none, none⟩ okStages 0).1.status = 400 :=
  ⟨by decide, by decide,
    (unknown_device_400_no_nav ⟨"https://example.com/", "unknown_device", false,
      false, false, some ("https:", "example.com"), none, none⟩ okStages 0
      (by decide)).1,
    (unknown_device_400_no_nav ⟨"https://example.com/", "unknown_device", false,
      false, false, some ("https:", "example.com"), none, none⟩ okStages 0
      (by decide)).2 (by decide)⟩

lemma renderHandler_reaches (rp : ReqParams) (oc : StageOutcomes) (ctr : ℕ)
    (hurl : rp.urlRaw ≠ "") (hkey : rp.deviceKey ≠ "")
    (hg : assertUrlAllowedReq rp.parsed rp.dns4 rp.dns6 = .ok ())
    (hdev : deviceFromKey rp.deviceKey ≠ none)
    (hl : oc.launch = .ok ()) (hnc : oc.newContext = .ok ()) :
    renderHandler rp oc ctr = (renderWithContext rp oc ⟨ctr, []⟩, ctr + 1) := by
  obtain ⟨d, hd⟩ := Option.ne_none_iff_exists'.mp hdev
  simp only [renderHandler, hg, hd, hl, hnc,
    if_neg (show ¬ (rp.urlRaw = "" ∨ rp.deviceKey = "") from by
      push_neg
      exact ⟨hurl, hkey⟩)]

/-- **C5.** Stage-timeout policy.  (a) A scan rejection carrying
`PREHIDE_TIMEOUT` is absorbed inside `preHideOverlays` into the zeroed result
with the flag set.  (b) If the whole pre-hide scan stage rejects (its own
timeout, the outer watchdog, or any error) while every other stage succeeds,
the request still succeeds: status 200, all overlay metrics zeroed
(`overlayRects` empty, `overlayElemsMarked = 0`, `overlayCoveragePct = 0`,
`overlayBlockers = 0`) and `preHideTimedOut = true`.  (c)/(d) A navigation or
screenshot failure instead aborts the whole request: its error status is
returned and no payload is produced. -/
theorem stage_timeout_policy (rp : ReqParams) (oc : StageOutcomes) (ctr : ℕ) :
    (∀ e, jsIncludes e.msg "PREHIDE_TIMEOUT" = true →
      preHideOverlaysStep (.error e) = .ok ⟨[], 0, 0, 0, true⟩) ∧
    (rp.urlRaw ≠ "" → rp.deviceKey ≠ "" →
      assertUrlAllowedReq rp.parsed rp.dns4 rp.dns6 = .ok () →
      deviceFromKey rp.deviceKey ≠ none →
      oc.launch = .ok () → oc.newContext = .ok () → oc.newPage = .ok () →
      oc.nav = .ok () → ∀ e2, oc.pre = .error e2 → oc.hide = .ok () →
      ∀ u, oc.audit = .ok u → oc.shot = .ok () → rp.debugHeatmap = false →
      (renderHandler rp oc ctr).1.status = 200 ∧
      (renderHandler rp oc ctr).1.ux = some ⟨u, 0, 0, 0⟩ ∧
      (renderHandler rp oc ctr).1.preHideTimedOut = some true ∧
      (rp.debugRects = true →
        (renderHandler rp oc ctr).1.debugOverlayRects = some [])) ∧
    (rp.urlRaw ≠ "" → rp.deviceKey ≠ "" →
      assertUrlAllowedReq rp.parsed rp.dns4 rp.dns6 = .ok () →
      deviceFromKey rp.deviceKey ≠ none →
      oc.launch = .ok () → oc.newContext = .ok () → oc.newPage = .ok () →
      ∀ e2, oc.nav = .error e2 →
      (renderHandler rp oc ctr).1.status = e2.status ∧
      (renderHandler rp oc ctr).1.ux = none) ∧
    (rp.urlRaw ≠ "" → rp.deviceKey ≠ "" →
      assertUrlAllowedReq rp.parsed rp.dns4 rp.dns6 = .ok () →
      deviceFromKey rp.deviceKey ≠ none →
      oc.launch = .ok () → oc.newContext = .ok () → oc.newPage = .ok () →
      oc.nav = .ok () → oc.hide = .ok () → ∀ u, oc.audit = .ok u →
      ∀ e2, oc.shot = .error e2 →
      (renderHandler rp oc ctr).1.status = e2.status ∧
      (renderHandler rp oc ctr).1.ux = none) := by
  refine ⟨?_, ?_, ?_, ?_⟩
  · intro e he
    simp only [preHideOverlaysStep, he, if_true]
  · intro hurl hkey hg hdev hl hnc hnp hnav e2 hpre hhide u hau hshot hdbh
    rw [renderHandler_reaches rp oc ctr hurl hkey hg hdev hl hnc]
    simp only [renderWithContext, hnp, hnav, hhide, hau, hshot, hdbh,
      Bool.false_eq_true, if_false, handlerPre, preHideOverlaysStep, hpre]
    cases hj : jsIncludes e2.msg "PREHIDE_TIMEOUT" <;>
      simp [renderPayload, hj]
  · intro hurl hkey hg hdev hl hnc hnp e2 hnav
    rw [renderHandler_reaches rp oc ctr hurl hkey hg hdev hl hnc]
    simp only [renderWithContext, hnp, hnav]
    exact ⟨trivial, trivial⟩
  · intro hurl hkey hg hdev hl hnc hnp hnav hhide u hau e2 hshot
    rw [renderHandler_reaches rp oc ctr hurl hkey hg hdev hl hnc]
    simp only [renderWithContext, hnp, hnav, hhide, hau, hshot]
    exact ⟨trivial, trivial⟩

/-- The C5 stage oracles: everything succeeds except the pre-hide scan, which
times out. -/
def timeoutStages : StageOutcomes :=
  ⟨.ok (), .ok (), .ok (), .ok (),
    .error ⟨504, "preHideOverlays PREHIDE_TIMEOUT"⟩, .ok (),
    .ok uxSample, .ok (), .ok ()⟩

/-- Witness for C5: with the scan timed out, the concrete request still
answers 200 with zeroed overlay metrics and the degradation flag. -/
theorem stage_timeout_policy_witness :
    (okReq.urlRaw ≠ "" ∧ okReq.deviceKey ≠ "" ∧
      assertUrlAllowedReq okReq.parsed okReq.dns4 okReq.dns6 = .ok () ∧
      deviceFromKey okReq.deviceKey ≠ none ∧
      timeoutStages.pre = .error ⟨504, "preHideOverlays PREHIDE_TIMEOUT"⟩) ∧
    ((renderHandler okReq timeoutStages 0).1.status = 200 ∧
      (renderHandler okReq timeoutStages 0).1.ux = some ⟨uxSample, 0, 0, 0⟩ ∧
      (renderHandler okReq timeoutStages 0).1.preHideTimedOut = some true) :=
  ⟨⟨by decide, by decide, by decide, by decide, rfl⟩,
    by
      have h := (stage_timeout_policy okReq timeoutStages 0).2.1
        (by decide) (by decide) (by decide) (by decide) rfl rfl rfl rfl
        ⟨504, "preHideOverlays PREHIDE_TIMEOUT"⟩ rfl rfl uxSample rfl rfl rfl
      exact ⟨h.1, h.2.1, h.2.2.1⟩⟩

lemma renderWithContext_ux (rp : ReqParams) (oc : StageOutcomes)
    (c : BrowserContext) (p : UxPayload)
    (h : (renderWithContext rp oc c).ux = some p) :
    p.overlayBlockers = (handlerPre oc).overlayBlockers ∧
    p.overlayElemsMarked = (handlerPre oc).overlayElemsMarked := by
  obtain ⟨l, nc, np, nv, pr, hdo, au, sh, hm⟩ := oc
  obtain ⟨ul, dk, dbo, dbr, dbh, pa, d4, d6⟩ := rp
  simp only [renderWithContext] at h
  cases np <;> cases nv <;> cases hdo <;> cases au <;> cases sh <;>
    cases dbh <;> cases hm <;> simp_all [renderPayload] <;>
    simp [← h]

lemma renderHandler_ux (rp : ReqParams) (oc : StageOutcomes) (ctr : ℕ)
    (p : UxPayload) (h : (renderHandler rp oc ctr).1.ux = some p) :
    p.overlayBlockers = (handlerPre oc).overlayBlockers ∧
    p.overlayElemsMarked = (handlerPre oc).overlayElemsMarked := by
  unfold renderHandler at h
  split at h
  · simp at h
  split at h
  · simp at h
  split at h
  · simp at h
  split at h
  · simp at h
  split at h
  · simp at h
  · exact renderWithContext_ux rp oc ⟨ctr, []⟩ p h

/-- **C10.** The scan computes `overlayBlockers = candidates.length > 0 ? 1 : 0`,
so the field is 1 exactly when at least one overlay candidate was tagged and
never reflects a count above one; and in every successful render response the
`ux.overlayBlockers` value is 0 or 1 — equal to 1, when the scan completed,
iff the candidate list was non-empty (a timed-out scan reports 0). -/
theorem overlayBlockers_binary (rp : ReqParams) (oc : StageOutcomes) (ctr : ℕ)
    (vw vh : ℚ) (els : List ScanElem) :
    ((preHideScan vw vh els).overlayBlockers =
      if 0 < (preHideScan vw vh els).overlayElemsMarked then 1 else 0) ∧
    ((oc.pre = .ok (preHideScan vw vh els) ∨ (∃ e, oc.pre = .error e)) →
      ∀ p, (renderHandler rp oc ctr).1.ux = some p →
        (p.overlayBlockers = 0 ∨ p.overlayBlockers = 1) ∧
        (oc.pre = .ok (preHideScan vw vh els) →
          (p.overlayBlockers = 1 ↔
            0 < (els.filter (fun e => isOverlayCandidate vw vh e)).length))) := by
  constructor
  · rfl
  · intro hpre p hux
    have hfields := renderHandler_ux rp oc ctr p hux
    rcases hpre with hok | ⟨e, herr⟩
    · have hP : handlerPre oc = { preHideScan vw vh els with timedOut := false } := by
        simp [handlerPre, preHideOverlaysStep, hok]
      rw [hP] at hfields
      have hb : p.overlayBlockers =
          if 0 < (els.filter (fun e => isOverlayCandidate vw vh e)).length
          then 1 else 0 := by
        rw [hfields.1]
        rfl
      constructor
      · by_cases hlen : 0 < (els.filter (fun e => isOverlayCandidate vw vh e)).length
        · exact Or.inr (by rw [hb, if_pos hlen])
        · exact Or.inl (by rw [hb, if_neg hlen])
      · intro _
        rw [hb]
        by_cases hlen : 0 < (els.filter (fun e => isOverlayCandidate vw vh e)).length
        · simp [hlen]
        · simp [hlen]
    · have hP : (handlerPre oc).overlayBlockers = 0 := by
        simp only [handlerPre, preHideOverlaysStep, herr]
        cases hj : jsIncludes e.msg "PREHIDE_TIMEOUT" <;> simp [hj]
      constructor
      · exact Or.inl (hfields.1.trans hP)
      · intro hok
        rw [herr] at hok
        cases hok

/-- Witness for C10: the successful concrete request with a completed (empty)
scan reports `overlayBlockers` of 0 or 1. -/
theorem overlayBlockers_binary_witness :
    (okStages.pre = .ok (preHideScan 360 800 [])) ∧
    ((preHideScan 360 800 []).overlayBlockers =
      if 0 < (preHideScan 360 800 []).overlayElemsMarked then 1 else 0) ∧
    (∀ p, (renderHandler okReq okStages 0).1.ux = some p →
      (p.overlayBlockers = 0 ∨ p.overlayBlockers = 1)) :=
  ⟨rfl, (overlayBlockers_binary okReq okStages 0 360 800 []).1,
    fun p h =>
      (((overlayBlockers_binary okReq okStages 0 360 800 []).2 (Or.inl rfl)) p h).1⟩

/-! ## Screenshot job queue (src/worker.js)

The worker loop claims one job per iteration through the `claim_screenshot_job`
RPC and, on success, marks exactly the claimed row `done`
(src/worker.js lines 207-212).  Multiple worker processes interleave; each
claim call is a single atomic transition of the shared store, so any
concurrent execution is some sequence of claim calls. -/

inductive JobStatus where
  | queued
  | processing
  | done
  | error
deriving DecidableEq, Repr

structure Job where
  id : ℕ
  status : JobStatus
  attempt : ℕ
deriving DecidableEq, Repr

/-- Modelled from the spec: the `claim_screenshot_job` RPC — the data store's
atomic "claim next queued job" operation — is not under src/; only its caller
`claimNormalizedJob` (src/worker.js lines 96-165) is.  Per §6 it "leases a
row, increments its attempt count up to a configured maximum, and returns
enough of the row to act on (or nothing, if none available)", atomically at
the data-store level (§5).  The model leases the first queued row under the
attempt cap: it becomes `processing` with the attempt counter bumped, in one
atomic store transition. -/
def claimOp (maxAttempts : ℕ) : List Job → Option Job × List Job
  | [] => (none, [])
  | j :: rest =>
    if j.status = JobStatus.queued ∧ j.attempt < maxAttempts then
      (some { j with status := JobStatus.processing, attempt := j.attempt + 1 },
        { j with status := JobStatus.processing, attempt := j.attempt + 1 } :: rest)
    else
      ((claimOp maxAttempts rest).1, j :: (claimOp maxAttempts rest).2)

/-- `processJob` step 5 (src/worker.js lines 207-212): update
`status = "done"` on the rows whose id equals the claimed job's id. -/
def markDone (i : ℕ) (s : List Job) : List Job :=
  s.map (fun j => if j.id = i then { j with status := JobStatus.done } else j)

/-- The successful leases produced by `n` consecutive atomic claim calls —
the sequentialisation of any interleaving of concurrently polling workers. -/
def claimSeq (m : ℕ) : ℕ → List Job → List Job
  | 0, _ => []
  | n + 1, s =>
    match claimOp m s with
    | (some j, s2) => j :: claimSeq m n s2
    | (none, s2) => claimSeq m n s2

def claimable (m : ℕ) (j : Job) : Bool :=
  decide (j.status = JobStatus.queued ∧ j.attempt < m)

/-- Ids of the rows a claim call may still lease. -/
def claimableIds (m : ℕ) (s : List Job) : List ℕ :=
  (s.filter (claimable m)).map Job.id

lemma claimOp_ids (m : ℕ) (s : List Job) :
    (claimOp m s).2.map Job.id = s.map Job.id := by
  induction s with
  | nil => rfl
  | cons j rest ih =>
    by_cases hc : j.status = JobStatus.queued ∧ j.attempt < m
    · simp [claimOp, hc]
    · simp [claimOp, hc, ih]

lemma claimOp_none (m : ℕ) (s : List Job) (h : (claimOp m s).1 = none) :
    (claimOp m s).2 = s := by
  induction s with
  | nil => rfl
  | cons j rest ih =>
    by_cases hc : j.status = JobStatus.queued ∧ j.attempt < m
    · simp [claimOp, hc] at h
    · simp only [claimOp, if_neg hc] at h ⊢
      rw [ih h]

lemma claimableIds_subset_ids (m : ℕ) (s : List Job) :
    ∀ i ∈ claimableIds m s, i ∈ s.map Job.id :=
  fun i hi => ((s.filter_sublist).map Job.id).subset hi

lemma claimOp_some_spec (m : ℕ) (s : List Job) (j : Job) (s2 : List Job)
    (h : claimOp m s = (some j, s2)) :
    j.id ∈ claimableIds m s ∧
    (∀ i ∈ claimableIds m s2, i ∈ claimableIds m s) ∧
    ((s.map Job.id).Nodup → j.id ∉ claimableIds m s2) := by
  induction s generalizing j s2 with
  | nil => simp [claimOp] at h
  | cons hd rest ih =>
    by_cases hc : hd.status = JobStatus.queued ∧ hd.attempt < m
    · simp only [claimOp, if_pos hc] at h
      injection h with h1 h2
      injection h1 with h1
      subst h1
      subst h2
      have hcl : claimable m hd = true := by simp [claimable, hc]
      have hcl2 : claimable m ⟨hd.id, JobStatus.processing, hd.attempt + 1⟩ = false := by
        simp [claimable]
      refine ⟨?_, ?_, ?_⟩
      · simp [claimableIds, List.filter_cons, hcl]
      · intro i hi
        simp [claimableIds, List.filter_cons, hcl2] at hi
        simp [claimableIds, List.filter_cons, hcl]
        exact Or.inr hi
      · intro hnodup hmem
        simp [claimableIds, List.filter_cons, hcl2] at hmem
        obtain ⟨a, ⟨ha, _⟩, haid⟩ := hmem
        simp only [List.map_cons, List.nodup_cons] at hnodup
        exact hnodup.1 (haid ▸ List.mem_map_of_mem Job.id ha)
    · simp only [claimOp, if_neg hc] at h
      injection h with h1 h2
      have hrest : claimOp m rest = (some j, (claimOp m rest).2) :=
        Prod.ext h1 rfl
      obtain ⟨c1, c2, c3⟩ := ih j _ hrest
      have hcl : claimable m hd = false := by simp [claimable, hc]
      subst h2
      refine ⟨?_, ?_, ?_⟩
      · simpa [claimableIds, List.filter_cons, hcl] using c1
      · intro i hi
        simp only [claimableIds, List.filter_cons, hcl] at hi ⊢
        exact c2 i hi
      · intro hnodup
        simp only [List.map_cons, List.nodup_cons] at hnodup
        intro hmem
        simp only [claimableIds, List.filter_cons, hcl] at hmem
        exact c3 hnodup.2 hmem

lemma claimSeq_sub (m : ℕ) : ∀ (n : ℕ) (s : List Job),
    ∀ j ∈ claimSeq m n s, j.id ∈ claimableIds m s := by
  intro n
  induction n with
  | zero => intro s j hj; simp [claimSeq] at hj
  | succ n ih =>
    intro s j hj
    unfold claimSeq at hj
    cases hcl : claimOp m s with
    | mk o s2 =>
      rw [hcl] at hj
      cases o with
      | none =>
        have hs2 : s2 = s := by
          have := claimOp_none m s (by rw [hcl])
          rw [hcl] at this
          exact this
        rw [hs2] at hj
        exact ih s j hj
      | some j2 =>
        rcases List.mem_cons.mp hj with rfl | htail
        · exact (claimOp_some_spec m s j s2 hcl).1
        · exact (claimOp_some_spec m s j2 s2 hcl).2.1 j.id (ih s2 j htail)

lemma claimSeq_nodup (m : ℕ) : ∀ (n : ℕ) (s : List Job),
    (s.map Job.id).Nodup → ((claimSeq m n s).map Job.id).Nodup := by
  intro n
  induction n with
  | zero => intro s _; simp [claimSeq]
  | succ n ih =>
    intro s hnodup
    unfold claimSeq
    cases hcl : claimOp m s with
    | mk o s2 =>
      have hids : s2.map Job.id = s.map Job.id := by
        have := claimOp_ids m s
        rw [hcl] at this
        exact this
      cases o with
      | none => exact ih s2 (hids ▸ hnodup)
      | some j =>
        simp only [List.map_cons, List.nodup_cons]
        refine ⟨?_, ih s2 (hids ▸ hnodup)⟩
        intro hmem
        obtain ⟨k, hk, hkid⟩ := List.mem_map.mp hmem
        have hkc : k.id ∈ claimableIds m s2 := claimSeq_sub m n s2 k hk
        rw [hkid] at hkc
        exact (claimOp_some_spec m s j s2 hcl).2.2 hnodup hkc

lemma markDone_preserves_other (i k : ℕ) (hik : i ≠ k) (t : List Job) :
    (markDone i t).filter (fun r => r.id == k) = t.filter (fun r => r.id == k) := by
  induction t with
  | nil => rfl
  | cons r rest ih =>
    have ih2 : (List.map (fun j => if j.id = i then
        { j with status := JobStatus.done } else j) rest).filter
        (fun r => r.id == k) = rest.filter (fun r => r.id == k) := by
      simpa [markDone] using ih
    simp only [markDone, List.map_cons]
    by_cases hr : r.id = i
    · have h1 : (r.id == k) = false := by simp [hr, hik]
      have h2 : ((if r.id = i then { r with status := JobStatus.done } else r).id == k)
          = false := by simp [hr, hik]
      rw [List.filter_cons, List.filter_cons, h1, h2]
      simp only [Bool.false_eq_true, if_false]
      exact ih2
    · rw [if_neg hr, List.filter_cons, List.filter_cons]
      cases hk : (r.id == k) <;>
        simp only [hk, Bool.false_eq_true, if_false, if_true]
      · exact ih2
      · rw [ih2]

/-- **C7.** Exactly-once leasing: for a store whose row ids are distinct, any
sequence of atomic claim calls — the sequentialisation of any interleaving of
concurrently polling workers — returns each queued row at most once (the
leased ids are duplicate-free, every id is handed out at most once); hence
two distinct leases have distinct row ids, and a worker marking its own
leased row `done` leaves every other leased row untouched, so no job row is
ever marked `done` by two workers. -/
theorem lease_exactly_once (m n : ℕ) (s : List Job)
    (hnodup : (s.map Job.id).Nodup) :
    ((claimSeq m n s).map Job.id).Nodup ∧
    (∀ i : ℕ, ((claimSeq m n s).map Job.id).count i ≤ 1) ∧
    (∀ j k, j ∈ claimSeq m n s → k ∈ claimSeq m n s → j ≠ k →
      j.id ≠ k.id ∧
      ∀ t : List Job, (markDone j.id t).filter (fun r => r.id == k.id) =
        t.filter (fun r => r.id == k.id)) := by
  have hn := claimSeq_nodup m n s hnodup
  refine ⟨hn, fun i => List.nodup_iff_count_le_one.mp hn i, ?_⟩
  intro j k hj hk hjk
  have hne : j.id ≠ k.id := by
    intro heq
    exact hjk (List.inj_on_of_nodup_map hn hj hk heq)
  exact ⟨hne, fun t => markDone_preserves_other j.id k.id hne t⟩

/-- Witness for C7: a two-row queue, three claim calls — the leased ids are
exactly `[1, 2]`, duplicate-free. -/
theorem lease_exactly_once_witness :
    (([⟨1, JobStatus.queued, 0⟩, ⟨2, JobStatus.queued, 0⟩] : List Job).map
      Job.id).Nodup ∧
    ((claimSeq 3 3 [⟨1, JobStatus.queued, 0⟩, ⟨2, JobStatus.queued, 0⟩]).map
      Job.id).Nodup ∧
    (claimSeq 3 3 [⟨1, JobStatus.queued, 0⟩, ⟨2, JobStatus.queued, 0⟩]).map
      Job.id = [1, 2] :=
  ⟨by decide,
    (lease_exactly_once 3 3 [⟨1, JobStatus.queued, 0⟩, ⟨2, JobStatus.queued, 0⟩]
      (by decide)).1,
    by decide⟩
